import Mathlib

/-!
# Verification of the tobab access gateway core

Shallow embedding of the tobab gateway (package `main`, file `tobab.go`, and
package `storm`, file `storm/storm.go`) together with models of the external
collaborators the code delegates to (the storm key/value store, Go's
`net/url.Parse`, `net/http` headers and `time.ParseDuration`), and proofs
about the embedded definitions.
-/

namespace Tobab

/-! ## Data model

`tobab.Host` is declared in the `tobab` package (not shipped here); the spec
gives its shape: `{Hostname, Backend, Type}` with `Hostname` the unique key. -/

/-- Modelled from the spec: the `tobab.Host` record — the `tobab` package that
declares it is not in the sources; the spec gives its fields as
`{Hostname: unique DNS name (primary key), Backend: target URL, Type: enum}`
(the Go field `Type` is a Lean keyword, so it is embedded as `type`). -/
structure Host where
  Hostname : String
  Backend : String
  type : String
deriving Repr, DecidableEq

/-- The zero value of `tobab.Host`: in Go, `var h tobab.Host` starts with every
string field empty. -/
def zeroHost : Host := ⟨"", "", ""⟩

/-- Errors surfaced by the storm store: `storm.ErrAlreadyExists` on saving a
record whose unique key is taken, `storm.ErrNotFound` on a missed lookup. -/
inductive DBError where
  | DuplicateKey
  | NotFound
deriving Repr, DecidableEq

/-- The registry state: the records held by the storm database, in insertion
order. -/
abbrev Registry := List Host

/-- Modelled from the spec: `storm.DB.Save` of the storm library (an external
collaborator, not in the sources). Per the spec's registry contract it fails
with DuplicateKey when the unique `Hostname` key is already present, and
otherwise persists the record. -/
def stormSave (reg : Registry) (h : Host) : Except DBError Registry :=
  if reg.any (fun x => x.Hostname == h.Hostname) then
    .error .DuplicateKey
  else
    .ok (reg ++ [h])

/-- Modelled from the spec: `storm.DB.One "Hostname" hostname &h` of the storm
library. It returns the record whose key matches, or `ErrNotFound`; on failure
the out-parameter `h` is left untouched (so the caller keeps the zero value it
declared). -/
def stormOne (reg : Registry) (hostname : String) : Except DBError Host :=
  match reg.find? (fun x => x.Hostname == hostname) with
  | some h => .ok h
  | none => .error .NotFound

/-- Modelled from the spec: `storm.DB.DeleteStruct &h` of the storm library —
removes the record with `h`'s key, or fails with `ErrNotFound` when absent. -/
def stormDeleteStruct (reg : Registry) (h : Host) : Except DBError Registry :=
  if reg.any (fun x => x.Hostname == h.Hostname) then
    .ok (reg.filter (fun x => !(x.Hostname == h.Hostname)))
  else
    .error .NotFound

/-! ## Host registry operations (`storm/storm.go`)

The Go methods thread the database through mutation; here the registry state
is passed and returned explicitly.  A Go `(*tobab.Host, error)` return is
embedded as `Host × Option DBError`: the pointer in `GetHost` always points at
the stack variable `h`, so it is never nil; its pointee is the first
component. -/

/-- `stormDB.AddHost` (storm/storm.go:25-27): `return db.db.Save(&h)`. -/
def AddHost (reg : Registry) (h : Host) : Except DBError Registry :=
  stormSave reg h

/-- `stormDB.GetHost` (storm/storm.go:29-33): declares `var h tobab.Host`,
runs `db.db.One("Hostname", hostname, &h)` and returns `&h` together with the
error — the pointer is returned even when the lookup failed, in which case it
still refers to the zero value of `tobab.Host`. -/
def GetHost (reg : Registry) (hostname : String) : Host × Option DBError :=
  match stormOne reg hostname with
  | .ok h => (h, none)
  | .error e => (zeroHost, some e)

/-- `stormDB.GetHosts` (storm/storm.go:34-38): returns all records. -/
def GetHosts (reg : Registry) : List Host := reg

/-- `stormDB.DeleteHost` (storm/storm.go:39-45): looks the hostname up via
`GetHost`, returns the lookup error if any, otherwise deletes the record. -/
def DeleteHost (reg : Registry) (hostname : String) : Except DBError Registry :=
  match GetHost reg hostname with
  | (_, some e) => .error e
  | (h, none) => stormDeleteStruct reg h

/-! ### Registry theorems (claims C7, C8, C10) -/

/-- C7: for every registry state in which a hostname is already present,
`AddHost` with a record bearing that hostname fails with DuplicateKey; since
the operation returns no new registry state on failure, the previously stored
record for that hostname is unchanged. -/
theorem C7_addHost_duplicateKey (reg : Registry) (h h0 : Host)
    (hmem : h0 ∈ reg) (hname : h0.Hostname = h.Hostname) :
    AddHost reg h = .error .DuplicateKey := by
  unfold AddHost stormSave
  have : reg.any (fun x => x.Hostname == h.Hostname) = true := by
    rw [List.any_eq_true]
    exact ⟨h0, hmem, by simp [hname]⟩
  simp [this]

/-- C7 witness: adding a second record for `a.example.com` fails with
DuplicateKey. -/
theorem C7_addHost_duplicateKey_witness :
    AddHost [⟨"a.example.com", "http://127.0.0.1:9000", "http"⟩]
      ⟨"a.example.com", "http://10.0.0.1:80", "http"⟩ = .error .DuplicateKey :=
  C7_addHost_duplicateKey _ _ ⟨"a.example.com", "http://127.0.0.1:9000", "http"⟩
    (by simp) (by rfl)

/-- C8: for every registry state in which a hostname is absent, `DeleteHost`
with that hostname fails with NotFound; no new registry state is produced, so
the registry contents are unaltered. -/
theorem C8_deleteHost_notFound (reg : Registry) (hostname : String)
    (habs : ∀ h0 ∈ reg, h0.Hostname ≠ hostname) :
    DeleteHost reg hostname = .error .NotFound := by
  unfold DeleteHost GetHost stormOne
  have : reg.find? (fun x => x.Hostname == hostname) = none := by
    rw [List.find?_eq_none]
    intro x hx
    simp [habs x hx]
  simp [this]

/-- C8 witness: deleting `b.example.com` from a registry that holds only
`a.example.com` fails with NotFound. -/
theorem C8_deleteHost_notFound_witness :
    DeleteHost [⟨"a.example.com", "http://127.0.0.1:9000", "http"⟩]
      "b.example.com" = .error .NotFound :=
  C8_deleteHost_notFound _ _ (by intro h0 hm; simp at hm; simp [hm])

/-- C10: `GetHost` never returns a nil pointer: in the embedding it is total in
its `Host` component, and whenever the lookup fails, the returned record is
exactly the zero value of `tobab.Host`, returned alongside the error. -/
theorem C10_getHost_zero_on_error (reg : Registry) (hostname : String)
    (e : DBError) (herr : (GetHost reg hostname).2 = some e) :
    GetHost reg hostname = (zeroHost, some e) := by
  unfold GetHost at *
  cases hfind : stormOne reg hostname with
  | ok h => rw [hfind] at herr; simp at herr
  | error e0 =>
    rw [hfind] at herr
    simp at herr
    simp [herr]

/-- C10 witness: looking up a hostname in the empty registry yields the
zero-value record together with the NotFound error. -/
theorem C10_getHost_zero_on_error_witness :
    GetHost [] "a.example.com" = (zeroHost, some .NotFound) :=
  C10_getHost_zero_on_error [] "a.example.com" .NotFound (by rfl)

/-! ## Model of Go `net/url` parsing

`generateProxy` (tobab.go:262-286) delegates backend validation to Go's
`net/url.Parse`.  The definitions below translate the relevant subset of the
Go standard library parser (`url.Parse`, `parse`, `getScheme`,
`parseAuthority`, `parseHost`, `splitHostPort`) over `List Char`.  Two
simplifications, neither observable by any embedded tobab operation: percent
escapes are validated with Go's rules but the stored `Host`/`Path`/`Fragment`
text is kept undecoded, and the userinfo is validated but not stored. -/

/-- Result of `net/url.Parse`: the `url.URL` fields the gateway reads. -/
structure GoURL where
  Scheme : String := ""
  Opaque : String := ""
  Host : String := ""
  Path : String := ""
  RawQuery : String := ""
  ForceQuery : Bool := false
  Fragment : String := ""
deriving Repr, DecidableEq

/-- ASCII control bytes rejected by `net/url` (`stringContainsCTLByte`). -/
def isCTL (c : Char) : Bool := c.toNat < 0x20 || c.toNat == 0x7f

/-- Scheme letters (`a-z`, `A-Z`). -/
def isSchemeAlpha (c : Char) : Bool :=
  ('a' ≤ c && c ≤ 'z') || ('A' ≤ c && c ≤ 'Z')

/-- ASCII digits. -/
def isDigitChar (c : Char) : Bool := '0' ≤ c && c ≤ '9'

/-- Hexadecimal digits (`ishex` in `net/url`). -/
def isHexChar (c : Char) : Bool :=
  isDigitChar c || ('a' ≤ c && c ≤ 'f') || ('A' ≤ c && c ≤ 'F')

/-- Value of a hexadecimal digit (`unhex` in `net/url`). -/
def hexVal (c : Char) : Nat :=
  if isDigitChar c then c.toNat - '0'.toNat
  else if 'a' ≤ c && c ≤ 'f' then c.toNat - 'a'.toNat + 10
  else if 'A' ≤ c && c ≤ 'F' then c.toNat - 'A'.toNat + 10
  else 0

/-- `strings.Cut` at the first occurrence of `sep`: `some (before, after)`
when found. -/
def cutAt (sep : Char) : List Char → Option (List Char × List Char)
  | [] => none
  | c :: cs =>
    if c == sep then some ([], cs)
    else (cutAt sep cs).map (fun p => (c :: p.1, p.2))

/-- Split at the last occurrence of `sep` (`strings.LastIndex`):
`some (before, after)` when found. -/
def splitAtLast (sep : Char) (s : List Char) : Option (List Char × List Char) :=
  (cutAt sep s.reverse).map (fun p => (p.2.reverse, p.1.reverse))

/-- Characters Go accepts unescaped in a host (`shouldEscape` with
`encodeHost` returning false): RFC 3986 unreserved and sub-delims plus the
legacy set. -/
def hostCharOK (c : Char) : Bool :=
  isSchemeAlpha c || isDigitChar c ||
  [ '-', '_', '.', '~', '!', '$', '&', Char.ofNat 39,
    '(', ')', '*', '+', ',', ';', '=', ':', '[', ']', '<', '>', '"'].contains c

/-- Characters Go accepts in userinfo (`validUserinfo`). -/
def userinfoCharOK (c : Char) : Bool :=
  isSchemeAlpha c || isDigitChar c ||
  [ '-', '.', '_', ':', '~', '!', '$', '&', Char.ofNat 39,
    '(', ')', '*', '+', ',', ';', '=', '%', '@'].contains c

/-- The escape-wellformedness pass of `net/url.unescape`: every `%` must head
a valid `%XX` hex escape; in host mode (`encodeHost`) an escaped byte below
`0x80` is rejected unless it is `%25`, and every plain character must be a
valid host character. -/
def validEscapes (hostMode : Bool) : List Char → Bool
  | [] => true
  | '%' :: rest =>
    match rest with
    | a :: b :: rest2 =>
      isHexChar a && isHexChar b &&
      (!hostMode || decide (8 ≤ hexVal a) || (a == '2' && b == '5')) &&
      validEscapes hostMode rest2
    | _ => false
  | c :: rest => (!hostMode || hostCharOK c) && validEscapes hostMode rest

/-- `net/url.validOptionalPort`: empty, or a colon followed by digits. -/
def validOptionalPort : List Char → Bool
  | [] => true
  | c :: rest => c == ':' && rest.all isDigitChar

/-- `net/url.getScheme`, walking the input exactly as the Go loop does:
letters continue; digits and `+`/`-`/`.` continue unless first; a colon first
is the missing-protocol-scheme error, otherwise ends the (lowercased) scheme;
any other character means the whole input is a path. `orig` is the full input,
`acc` the consumed prefix reversed, `first` whether the index is zero. -/
def getSchemeAux (orig : List Char) :
    List Char → List Char → Bool → Except String (List Char × List Char)
  | [], _, _ => .ok ([], orig)
  | c :: cs, acc, first =>
    if isSchemeAlpha c then getSchemeAux orig cs (c :: acc) false
    else if isDigitChar c || c == '+' || c == '-' || c == '.' then
      if first then .ok ([], orig) else getSchemeAux orig cs (c :: acc) false
    else if c == ':' then
      if first then .error "missing protocol scheme"
      else .ok (acc.reverse.map Char.toLower, cs)
    else .ok ([], orig)

/-- `net/url.getScheme` on a whole input. -/
def getSchemeGo (s : List Char) : Except String (List Char × List Char) :=
  getSchemeAux s s [] true

/-- `net/url.parseHost`: a bracketed host needs a closing bracket and a valid
optional port after it; otherwise everything after the last colon must be
digits; finally every character must pass the host escape check. -/
def parseHostGo (host : List Char) : Except String (List Char) := do
  if host.head? == some '[' then
    match splitAtLast ']' host with
    | none => throw "missing closing bracket in host"
    | some (_, colonPort) =>
      if !(validOptionalPort colonPort) then throw "invalid port after host"
  else
    match splitAtLast ':' host with
    | none => pure ()
    | some (_, portDigits) =>
      if !(portDigits.all isDigitChar) then throw "invalid port after host"
  if !(validEscapes true host) then throw "invalid host character"
  pure host

/-- `net/url.parseAuthority`: userinfo before the last `@` is validated, the
remainder is the host. -/
def parseAuthorityGo (authority : List Char) : Except String (List Char) := do
  match splitAtLast '@' authority with
  | none => parseHostGo authority
  | some (userinfo, hostPart) =>
    let host ← parseHostGo hostPart
    if !(userinfo.all userinfoCharOK) then throw "invalid userinfo"
    if !(validEscapes false userinfo) then throw "invalid URL escape"
    pure host

/-- `net/url.parse` with `viaRequest = false` (the `url.Parse` path), after
the fragment has been split off: control-character check, `*` special case,
scheme extraction, query split (with the trailing-`?` `ForceQuery` case),
opaque rootless paths for scheme-ful URLs, the colon-in-first-path-segment
error, authority parsing after `//`, and the path escape check. -/
def urlParseNoFrag (raw : List Char) : Except String GoURL := do
  if raw.any isCTL then throw "invalid control character in URL"
  if raw == ['*'] then return { Path := "*" }
  let (scheme, rest) ← getSchemeGo raw
  let (rest, rawQ, fq) :=
    if rest.getLast? == some '?' && !(rest.dropLast.contains '?') then
      (rest.dropLast, ([] : List Char), true)
    else
      match cutAt '?' rest with
      | some (a, b) => (a, b, false)
      | none => (rest, [], false)
  if !(rest.head? == some '/') then
    if scheme ≠ [] then
      return { Scheme := String.mk scheme, Opaque := String.mk rest,
               RawQuery := String.mk rawQ, ForceQuery := fq }
    let seg := match cutAt '/' rest with
      | some (a, _) => a
      | none => rest
    if seg.contains ':' then
      throw "first path segment in URL cannot contain colon"
  let (host, rest) ←
    if (scheme ≠ [] || !(rest.take 3 == ['/', '/', '/'])) &&
        rest.take 2 == ['/', '/'] then
      match cutAt '/' (rest.drop 2) with
      | some (a, b) => do
        let h ← parseAuthorityGo a
        pure (h, '/' :: b)
      | none => do
        let h ← parseAuthorityGo (rest.drop 2)
        pure (h, ([] : List Char))
    else
      pure (([] : List Char), rest)
  if !(validEscapes false rest) then throw "invalid URL escape"
  return { Scheme := String.mk scheme, Host := String.mk host,
           Path := String.mk rest, RawQuery := String.mk rawQ, ForceQuery := fq }

/-- `net/url.Parse`: split the fragment at the first `#`, parse the rest, then
validate the fragment's escapes. -/
def urlParse (rawURL : String) : Except String GoURL := do
  let (u, frag) :=
    match cutAt '#' rawURL.toList with
    | some (a, b) => (a, b)
    | none => (rawURL.toList, [])
  let url ← urlParseNoFrag u
  if frag == [] then return url
  if !(validEscapes false frag) then throw "invalid URL escape"
  return { url with Fragment := String.mk frag }

/-- `net/url.splitHostPort` (used by `URL.Hostname`): strip a valid numeric
port after the last colon, then strip surrounding brackets. -/
def splitHostPort (hostPort : List Char) : List Char × List Char :=
  let (host, port) :=
    match splitAtLast ':' hostPort with
    | some (before, after) =>
      if after.all isDigitChar then (before, after) else (hostPort, [])
    | none => (hostPort, [])
  if host.head? == some '[' && host.getLast? == some ']' then
    ((host.drop 1).dropLast, port)
  else (host, port)

/-- `url.URL.Hostname()`: the host with any port and brackets removed. -/
def GoURL.HostnameOf (u : GoURL) : String :=
  String.mk (splitHostPort u.Host.toList).1

example : urlParse "http://127.0.0.1:9000" =
    .ok { Scheme := "http", Host := "127.0.0.1:9000" } := rfl

example : urlParse "not-a-url" = .ok { Path := "not-a-url" } := rfl

example : urlParse "://bad" = .error "missing protocol scheme" := rfl

example : urlParse "http://a b.com" = .error "invalid host character" := rfl

example : (GoURL.HostnameOf { Host := "127.0.0.1:9000" }) = "127.0.0.1" := rfl

/-! ## Proxy factory and request forwarding (`tobab.go:262-286`)

`generateProxy` parses the backend and closes a `ReverseProxy` Director over
the parsed URL and the virtual hostname.  The handler is embedded as the data
the closure captures plus the Director as a function on requests.  The
transport timeouts configured alongside it are connection-pool settings with
no effect on the request rewrite and are not modelled. -/

/-- The state a `generateProxy` closure captures: the virtual hostname
(`host`) and the parsed backend (`url`). -/
structure Proxy where
  originHost : String
  backendURL : GoURL
deriving Repr, DecidableEq

/-- `generateProxy` (tobab.go:262-266): parse the backend, propagating the
parse error, otherwise produce the handler. -/
def generateProxy (host backend : String) : Except String Proxy :=
  match urlParse backend with
  | .error e => .error e
  | .ok u => .ok ⟨host, u⟩

/-- Go `http.Header` restricted to what the Director touches: an ordered list
of key/value pairs.  `Header.Add` appends a value for a key; `Header.Get`
returns the first value stored for the key (the keys used here are already in
canonical MIME form, so canonicalization is the identity). -/
abbrev Header := List (String × String)

/-- `http.Header.Add`. -/
def headerAdd (h : Header) (key value : String) : Header := h ++ [(key, value)]

/-- `http.Header.Get`. -/
def headerGet (h : Header) (key : String) : Option String :=
  (h.find? (fun p => p.1 == key)).map (fun p => p.2)

/-- The parts of Go's `http.Request` the Director reads or writes: method,
URL, the `Host` field (which the Go transport sends as the outbound Host
header), headers, and the body (opaque bytes). -/
structure Request where
  Method : String
  URL : GoURL
  Host : String
  Header : Header
  Body : List UInt8
deriving Repr, DecidableEq

/-- The `ReverseProxy` Director of `generateProxy` (tobab.go:268-274):
`Header.Add("X-Forwarded-Host", url.Hostname())`,
`Header.Add("X-Origin-Host", host)`, `req.Host = url.Host`,
`req.URL.Host = url.Host`, `req.URL.Scheme = url.Scheme`. -/
def director (p : Proxy) (req : Request) : Request :=
  let h1 := headerAdd req.Header "X-Forwarded-Host" p.backendURL.HostnameOf
  let h2 := headerAdd h1 "X-Origin-Host" p.originHost
  { req with
    Header := h2
    Host := p.backendURL.Host
    URL := { req.URL with Host := p.backendURL.Host, Scheme := p.backendURL.Scheme } }

/-! ## Routing table construction (`tobab.go:203-231`)

`startServer` builds a mux router and the certificate-domain list.  The router
is embedded as the list of host-bound routes registered on it, the domain list
as `certHosts`; `logger.Fatal` (which exits the process) is embedded as the
error case of `Except`, which likewise discards the partial table and stops
the traversal. -/

/-- One registered route: `r.Host(conf.Hostname).PathPrefix("/")` with the
handler wrapping the generated proxy. -/
structure Route where
  host : String
  proxy : Proxy
deriving Repr, DecidableEq

/-- The result of the build: the registered routes and the certificate-domain
list handed to `certmagic.Listen`. -/
structure RoutingTable where
  routes : List Route
  certHosts : List String
deriving Repr, DecidableEq

/-- One iteration of the `startServer` host loop (tobab.go:215-231): a type
other than `"http"` is `logger.Fatal`; a proxy-construction failure is logged
and skipped (`continue`); otherwise the route is registered and the hostname
appended to `certHosts`. -/
def buildStep (rt : RoutingTable) (conf : Host) : Except String RoutingTable :=
  if conf.type ≠ "http" then
    .error "Unsupported type, currently only http is supported"
  else
    match generateProxy conf.Hostname conf.Backend with
    | .error _ => .ok rt
    | .ok p =>
      .ok { routes := rt.routes ++ [⟨conf.Hostname, p⟩]
            certHosts := rt.certHosts ++ [conf.Hostname] }

/-- The routing-table build of `startServer` (tobab.go:205-231): `certHosts`
starts as `[app.config.Hostname]`, then the host loop runs. -/
def buildRoutingTable (cfgHostname : String) (hosts : List Host) :
    Except String RoutingTable :=
  hosts.foldlM buildStep { routes := [], certHosts := [cfgHostname] }

/-- Whether the built router has a route bound to the given virtual host. -/
def servesHost (rt : RoutingTable) (hostname : String) : Bool :=
  rt.routes.any (fun r => r.host == hostname)

/-- The route one host contributes, when its backend parses. -/
def routeOf? (h : Host) : Option Route :=
  match generateProxy h.Hostname h.Backend with
  | .ok p => some ⟨h.Hostname, p⟩
  | .error _ => none

/-! ### Routing-table lemmas shared by the build claims -/

/-- A host contributes a route exactly when its backend parses. -/
theorem routeOf?_isSome (h : Host) :
    (routeOf? h).isSome = (urlParse h.Backend).isOk := by
  unfold routeOf? generateProxy
  cases urlParse h.Backend <;> rfl

/-- Running the host loop from any accumulator over hosts that are all of
Type `http` never aborts: the routes of the parse-succeeding hosts are
appended, and their hostnames are appended to `certHosts`. -/
theorem foldlM_buildStep_http (hosts : List Host) :
    ∀ rt0 : RoutingTable, (∀ h ∈ hosts, h.type = "http") →
    hosts.foldlM buildStep rt0 = .ok
      { routes := rt0.routes ++ hosts.filterMap routeOf?
        certHosts := rt0.certHosts ++ (hosts.filterMap routeOf?).map (fun r => r.host) } := by
  induction hosts with
  | nil =>
    intro rt0 _
    simp only [List.foldlM, List.filterMap_nil, List.append_nil, List.map_nil]
    rfl
  | cons a t ih =>
    intro rt0 hall
    have ha : a.type = "http" := hall a (by simp)
    have ht : ∀ h ∈ t, h.type = "http" := fun h hm => hall h (by simp [hm])
    rw [List.foldlM_cons]
    cases hgen : generateProxy a.Hostname a.Backend with
    | error e =>
      simp only [buildStep, ha, ne_eq, not_true_eq_false, if_false, hgen]
      exact (ih rt0 ht).trans (by simp [List.filterMap_cons, routeOf?, hgen])
    | ok p =>
      simp only [buildStep, ha, ne_eq, not_true_eq_false, if_false, hgen]
      exact (ih { routes := rt0.routes ++ [⟨a.Hostname, p⟩],
                  certHosts := rt0.certHosts ++ [a.Hostname] } ht).trans
        (by simp [List.filterMap_cons, routeOf?, hgen])

/-- When every backend parses, the contributed route hostnames are exactly the
host list's hostnames, in order. -/
theorem filterMap_routeOf_all_ok (hosts : List Host)
    (hok : ∀ h ∈ hosts, (urlParse h.Backend).isOk = true) :
    (hosts.filterMap routeOf?).map (fun r => r.host) =
      hosts.map (fun h => h.Hostname) := by
  induction hosts with
  | nil => simp
  | cons a t ih =>
    have ha := hok a (by simp)
    have ht : ∀ h ∈ t, (urlParse h.Backend).isOk = true :=
      fun h hm => hok h (by simp [hm])
    cases hgen : urlParse a.Backend with
    | error e => rw [hgen] at ha; simp [Except.isOk, Except.toBool] at ha
    | ok u =>
      simp [List.filterMap_cons, routeOf?, generateProxy, hgen, ih ht]

/-- Running the host loop from any accumulator over a list that contains a
host of a Type other than `http` aborts with the fatal unsupported-type error:
no routing table is produced and the hosts after the offending one are never
visited. -/
theorem foldlM_buildStep_fatal (hosts : List Host) :
    ∀ rt0 : RoutingTable, (∃ h ∈ hosts, h.type ≠ "http") →
    hosts.foldlM buildStep rt0 =
      .error "Unsupported type, currently only http is supported" := by
  induction hosts with
  | nil => intro rt0 hbad; simp at hbad
  | cons a t ih =>
    intro rt0 hbad
    rw [List.foldlM_cons]
    by_cases ha : a.type = "http"
    · have hbt : ∃ h ∈ t, h.type ≠ "http" := by
        rcases hbad with ⟨h, hm, hne⟩
        rcases List.mem_cons.mp hm with rfl | hmt
        · exact absurd ha hne
        · exact ⟨h, hmt, hne⟩
      cases hgen : generateProxy a.Hostname a.Backend with
      | error e =>
        simp only [buildStep, ha, ne_eq, not_true_eq_false, if_false, hgen]
        exact ih rt0 hbt
      | ok p =>
        simp only [buildStep, ha, ne_eq, not_true_eq_false, if_false, hgen]
        exact ih _ hbt
    · simp only [buildStep, if_pos ha]
      rfl

/-! ### Claims C1, C2, C4 -/

/-- C1 (amended): building the routing table from N hosts, all of Type `http`
and all with backends that parse, yields a certificate-domain list that is the
management hostname followed by the N configured hostnames in order — N+1
entries.  The list is not deduplicated: it is duplicate-free exactly when the
configured hostnames are pairwise distinct and none of them equals the
management hostname. -/
theorem C1_certHosts (cfgHostname : String) (hosts : List Host)
    (htype : ∀ h ∈ hosts, h.type = "http")
    (hok : ∀ h ∈ hosts, (urlParse h.Backend).isOk = true) :
    ∃ rt, buildRoutingTable cfgHostname hosts = .ok rt ∧
      rt.certHosts = cfgHostname :: hosts.map (fun h => h.Hostname) ∧
      rt.certHosts.length = hosts.length + 1 ∧
      (rt.certHosts.Nodup ↔
        cfgHostname ∉ hosts.map (fun h => h.Hostname) ∧
          (hosts.map (fun h => h.Hostname)).Nodup) := by
  refine ⟨_, foldlM_buildStep_http hosts _ htype, ?_, ?_, ?_⟩ <;>
    simp [filterMap_routeOf_all_ok hosts hok, List.nodup_cons]

/-- C1 witness: two distinct hosts and a distinct management hostname give the
three-entry duplicate-free list. -/
theorem C1_certHosts_witness :
    ∃ rt, buildRoutingTable "tobab.example.com"
        [⟨"a.example.com", "http://127.0.0.1:9000", "http"⟩,
         ⟨"b.example.com", "http://127.0.0.1:9001", "http"⟩] = .ok rt ∧
      rt.certHosts = "tobab.example.com" ::
        ([⟨"a.example.com", "http://127.0.0.1:9000", "http"⟩,
          ⟨"b.example.com", "http://127.0.0.1:9001", "http"⟩] : List Host).map
          (fun h => h.Hostname) ∧
      rt.certHosts.length =
        ([⟨"a.example.com", "http://127.0.0.1:9000", "http"⟩,
          ⟨"b.example.com", "http://127.0.0.1:9001", "http"⟩] : List Host).length + 1 ∧
      (rt.certHosts.Nodup ↔
        "tobab.example.com" ∉
          ([⟨"a.example.com", "http://127.0.0.1:9000", "http"⟩,
            ⟨"b.example.com", "http://127.0.0.1:9001", "http"⟩] : List Host).map
            (fun h => h.Hostname) ∧
          (([⟨"a.example.com", "http://127.0.0.1:9000", "http"⟩,
             ⟨"b.example.com", "http://127.0.0.1:9001", "http"⟩] : List Host).map
            (fun h => h.Hostname)).Nodup) :=
  C1_certHosts "tobab.example.com" _ (by decide) (by decide)

/-- C1 counterexample: with management hostname `tobab.example.com` and a
single http host with the same hostname and a valid backend, the build
succeeds but the certificate-domain list is
`["tobab.example.com", "tobab.example.com"]`, which contains a duplicate —
refuting the claimed duplicate-freeness. -/
theorem C1_counterexample :
    buildRoutingTable "tobab.example.com"
        [⟨"tobab.example.com", "http://127.0.0.1:9000", "http"⟩] =
      .ok { routes := [⟨"tobab.example.com",
              ⟨"tobab.example.com", { Scheme := "http", Host := "127.0.0.1:9000" }⟩⟩]
            certHosts := ["tobab.example.com", "tobab.example.com"] } ∧
    ¬ (["tobab.example.com", "tobab.example.com"] : List String).Nodup :=
  ⟨rfl, by decide⟩

/-- C2 (amended): for a host list that is all of Type `http`, the build never
aborts, whatever the backends: it registers exactly the hosts whose backend
parses under Go `net/url.Parse` (each parse-failing host is excluded, the
remaining hosts are still processed), and a host is excluded exactly when its
backend fails to parse. -/
theorem C2_isolation (cfgHostname : String) (hosts : List Host)
    (htype : ∀ h ∈ hosts, h.type = "http") :
    ∃ rt, buildRoutingTable cfgHostname hosts = .ok rt ∧
      rt.routes = hosts.filterMap routeOf? ∧
      rt.certHosts = cfgHostname ::
        (hosts.filterMap routeOf?).map (fun r => r.host) ∧
      ∀ h : Host, (routeOf? h).isSome = (urlParse h.Backend).isOk := by
  refine ⟨_, foldlM_buildStep_http hosts _ htype, by simp, by simp, routeOf?_isSome⟩

/-- C2 witness: with `a.example.com` on a valid backend and `b.example.com` on
`://bad` — a backend Go's parser really rejects (missing protocol scheme) —
the build serves `a.example.com` and excludes `b.example.com`. -/
theorem C2_isolation_witness :
    (∃ rt, buildRoutingTable "tobab.example.com"
        [⟨"a.example.com", "http://127.0.0.1:9000", "http"⟩,
         ⟨"b.example.com", "://bad", "http"⟩] = .ok rt ∧
      rt.routes = ([⟨"a.example.com", "http://127.0.0.1:9000", "http"⟩,
          ⟨"b.example.com", "://bad", "http"⟩] : List Host).filterMap routeOf? ∧
      rt.certHosts = "tobab.example.com" ::
        (([⟨"a.example.com", "http://127.0.0.1:9000", "http"⟩,
           ⟨"b.example.com", "://bad", "http"⟩] : List Host).filterMap routeOf?).map
          (fun r => r.host) ∧
      ∀ h : Host, (routeOf? h).isSome = (urlParse h.Backend).isOk) ∧
    ([⟨"a.example.com", "http://127.0.0.1:9000", "http"⟩,
      ⟨"b.example.com", "://bad", "http"⟩] : List Host).filterMap routeOf? =
      [⟨"a.example.com", ⟨"a.example.com", { Scheme := "http", Host := "127.0.0.1:9000" }⟩⟩] :=
  ⟨C2_isolation "tobab.example.com" _ (by decide), rfl⟩

/-- C2 counterexample: on the claim's own two hosts, `url.Parse` accepts
`"not-a-url"` (it parses as a rootless path), so `b.example.com` is not
excluded: the build registers routes for both hostnames and puts both in the
certificate list. -/
theorem C2_counterexample :
    buildRoutingTable "tobab.example.com"
        [⟨"a.example.com", "http://127.0.0.1:9000", "http"⟩,
         ⟨"b.example.com", "not-a-url", "http"⟩] =
      .ok { routes := [⟨"a.example.com",
              ⟨"a.example.com", { Scheme := "http", Host := "127.0.0.1:9000" }⟩⟩,
            ⟨"b.example.com", ⟨"b.example.com", { Path := "not-a-url" }⟩⟩]
            certHosts := ["tobab.example.com", "a.example.com", "b.example.com"] } ∧
    servesHost
        { routes := [⟨"a.example.com",
              ⟨"a.example.com", { Scheme := "http", Host := "127.0.0.1:9000" }⟩⟩,
            ⟨"b.example.com", ⟨"b.example.com", { Path := "not-a-url" }⟩⟩],
          certHosts := ["tobab.example.com", "a.example.com", "b.example.com"] }
        "b.example.com" = true :=
  ⟨rfl, rfl⟩

/-- C4: if any host in the list has a Type other than `http`, the routing
table build is fatal (`logger.Fatal`, embedded as the error outcome, which in
the process kills it): no routing table is produced, and the traversal stops
at the offending host so no remaining host is processed. -/
theorem C4_unsupported_type_fatal (cfgHostname : String) (hosts : List Host)
    (h : Host) (hmem : h ∈ hosts) (htype : h.type ≠ "http") :
    buildRoutingTable cfgHostname hosts =
      .error "Unsupported type, currently only http is supported" :=
  foldlM_buildStep_fatal hosts _ ⟨h, hmem, htype⟩

/-- C4 witness: a single host of Type `tcp` makes the build fatal. -/
theorem C4_unsupported_type_fatal_witness :
    buildRoutingTable "tobab.example.com"
        [⟨"a.example.com", "http://127.0.0.1:9000", "http"⟩,
         ⟨"x.example.com", "http://127.0.0.1:9001", "tcp"⟩] =
      .error "Unsupported type, currently only http is supported" :=
  C4_unsupported_type_fatal "tobab.example.com" _
    ⟨"x.example.com", "http://127.0.0.1:9001", "tcp"⟩ (by decide) (by decide)

/-! ### Claim C3: the forwarding handler's request rewrite -/

/-- C3 (amended): for every proxy and every inbound request that does not
already carry an `X-Forwarded-Host` or `X-Origin-Host` header, the Director
preserves the request's method, path, query and body, overwrites the outbound
Host (the `req.Host` field Go sends as the Host header) to the backend URL's
authority, appends `X-Forwarded-Host` with the backend's hostname and
`X-Origin-Host` with the original virtual hostname — which, the request not
carrying them before, sets them to those values.  (`Header.Add` appends:
values already present survive in front, which is what bars the unconditional
form of the claim.) -/
theorem C3_director (p : Proxy) (req : Request)
    (hXFH : headerGet req.Header "X-Forwarded-Host" = none)
    (hXOH : headerGet req.Header "X-Origin-Host" = none) :
    (director p req).Method = req.Method ∧
    (director p req).URL.Path = req.URL.Path ∧
    (director p req).URL.RawQuery = req.URL.RawQuery ∧
    (director p req).Body = req.Body ∧
    (director p req).Host = p.backendURL.Host ∧
    (director p req).URL.Host = p.backendURL.Host ∧
    (director p req).URL.Scheme = p.backendURL.Scheme ∧
    (director p req).Header = req.Header ++
      [("X-Forwarded-Host", p.backendURL.HostnameOf),
       ("X-Origin-Host", p.originHost)] ∧
    headerGet (director p req).Header "X-Forwarded-Host" =
      some p.backendURL.HostnameOf ∧
    headerGet (director p req).Header "X-Origin-Host" = some p.originHost := by
  have hfindXFH : req.Header.find? (fun q => q.1 == "X-Forwarded-Host") = none := by
    unfold headerGet at hXFH
    exact Option.map_eq_none.mp hXFH
  have hfindXOH : req.Header.find? (fun q => q.1 == "X-Origin-Host") = none := by
    unfold headerGet at hXOH
    exact Option.map_eq_none.mp hXOH
  refine ⟨rfl, rfl, rfl, rfl, rfl, rfl, rfl, by simp [director, headerAdd], ?_, ?_⟩ <;>
    simp [director, headerAdd, headerGet, List.find?_append, hfindXFH, hfindXOH]

/-- C3 witness: the end-to-end example — virtual host `app.example.com`,
backend `http://127.0.0.1:9000`, inbound `GET /foo` with no prior forwarding
headers: the outbound Host becomes `127.0.0.1:9000`, `X-Forwarded-Host`
becomes `127.0.0.1`, `X-Origin-Host` becomes `app.example.com`, and method,
path, query and body are untouched. -/
theorem C3_director_witness :
    (director ⟨"app.example.com", { Scheme := "http", Host := "127.0.0.1:9000" }⟩
        { Method := "GET", URL := { Path := "/foo" }, Host := "app.example.com",
          Header := [], Body := [] }).Method = "GET" ∧
    (director ⟨"app.example.com", { Scheme := "http", Host := "127.0.0.1:9000" }⟩
        { Method := "GET", URL := { Path := "/foo" }, Host := "app.example.com",
          Header := [], Body := [] }).URL.Path = "/foo" ∧
    (director ⟨"app.example.com", { Scheme := "http", Host := "127.0.0.1:9000" }⟩
        { Method := "GET", URL := { Path := "/foo" }, Host := "app.example.com",
          Header := [], Body := [] }).URL.RawQuery = "" ∧
    (director ⟨"app.example.com", { Scheme := "http", Host := "127.0.0.1:9000" }⟩
        { Method := "GET", URL := { Path := "/foo" }, Host := "app.example.com",
          Header := [], Body := [] }).Body = [] ∧
    (director ⟨"app.example.com", { Scheme := "http", Host := "127.0.0.1:9000" }⟩
        { Method := "GET", URL := { Path := "/foo" }, Host := "app.example.com",
          Header := [], Body := [] }).Host = "127.0.0.1:9000" ∧
    (director ⟨"app.example.com", { Scheme := "http", Host := "127.0.0.1:9000" }⟩
        { Method := "GET", URL := { Path := "/foo" }, Host := "app.example.com",
          Header := [], Body := [] }).URL.Host = "127.0.0.1:9000" ∧
    (director ⟨"app.example.com", { Scheme := "http", Host := "127.0.0.1:9000" }⟩
        { Method := "GET", URL := { Path := "/foo" }, Host := "app.example.com",
          Header := [], Body := [] }).URL.Scheme = "http" ∧
    (director ⟨"app.example.com", { Scheme := "http", Host := "127.0.0.1:9000" }⟩
        { Method := "GET", URL := { Path := "/foo" }, Host := "app.example.com",
          Header := [], Body := [] }).Header = [] ++
      [("X-Forwarded-Host",
        GoURL.HostnameOf { Scheme := "http", Host := "127.0.0.1:9000" }),
       ("X-Origin-Host", "app.example.com")] ∧
    headerGet (director ⟨"app.example.com", { Scheme := "http", Host := "127.0.0.1:9000" }⟩
        { Method := "GET", URL := { Path := "/foo" }, Host := "app.example.com",
          Header := [], Body := [] }).Header "X-Forwarded-Host" =
      some (GoURL.HostnameOf { Scheme := "http", Host := "127.0.0.1:9000" }) ∧
    headerGet (director ⟨"app.example.com", { Scheme := "http", Host := "127.0.0.1:9000" }⟩
        { Method := "GET", URL := { Path := "/foo" }, Host := "app.example.com",
          Header := [], Body := [] }).Header "X-Origin-Host" =
      some "app.example.com" := by
  have h := C3_director
    ⟨"app.example.com", { Scheme := "http", Host := "127.0.0.1:9000" }⟩
    { Method := "GET", URL := { Path := "/foo" }, Host := "app.example.com",
      Header := [], Body := [] } rfl rfl
  exact h

/-- C3 counterexample: the handler produced for backend
`http://127.0.0.1:9000` does not *set* `X-Forwarded-Host`: on a request that
already carries `X-Forwarded-Host: evil.example.com`, the Director appends
(Go `Header.Add`), so after the rewrite the header's value is still
`evil.example.com` and not the backend hostname `127.0.0.1`. -/
theorem C3_counterexample :
    generateProxy "app.example.com" "http://127.0.0.1:9000" =
      .ok ⟨"app.example.com", { Scheme := "http", Host := "127.0.0.1:9000" }⟩ ∧
    GoURL.HostnameOf { Scheme := "http", Host := "127.0.0.1:9000" } = "127.0.0.1" ∧
    headerGet (director
        ⟨"app.example.com", { Scheme := "http", Host := "127.0.0.1:9000" }⟩
        { Method := "GET", URL := { Path := "/foo" }, Host := "app.example.com",
          Header := [("X-Forwarded-Host", "evil.example.com")], Body := [] }).Header
        "X-Forwarded-Host" = some "evil.example.com" ∧
    some "evil.example.com" ≠ some "127.0.0.1" :=
  ⟨rfl, rfl, rfl, by decide⟩

/-! ## Reload lifecycle (`tobab.go:192-260`)

`restartServer` shuts the current server down (a drain bounded by a 1-minute
context) and spawns `startServer`; `startServer` builds the routing table,
binds the gateway's fixed public HTTPS port through `certmagic.Listen`, spawns
the accept loop, and publishes the new server in `app.server`.  Neither
function takes a lock, checks a flag, or consults a queue: the embedding below
is a direct interleaving semantics of the two function bodies with no
synchronization, because the source has none.  The build is taken on its happy
path (the claim's scenario).  The port is a single exclusive resource:
`certmagic.Listen` succeeds only while no listener is bound, and when the bind
fails — as it does for the second of two concurrent rebuilds — `startServer`
hits `logger.Fatal("Failed getting certmagic listener")` (tobab.go:240-243)
and the process dies, after which no goroutine runs. -/

/-- Program points of in-flight reload goroutines: `restartServer` before
`app.server.Shutdown` (tobab.go:197), `restartServer` before
`go app.startServer()` (tobab.go:200), `startServer` before the build and
`certmagic.Listen` (tobab.go:205-243), and `startServer` holding its bound
listener before `app.server = srv` (tobab.go:245-259). -/
inductive ThreadPC where
  | restartAtShutdown
  | restartAtSpawn
  | startAtListen
  | startAtPublish (lid : Nat)
deriving Repr, DecidableEq

/-- Shared state of the reload subsystem: the bound listening sockets (by id —
at most one can be bound, since they all target the same port), the listener
of the server `app.server` points at, the in-flight goroutines, a fresh-id
counter, and whether `logger.Fatal` has killed the process. -/
structure ReloadState where
  listeners : List Nat
  current : Option Nat
  threads : List ThreadPC
  nextId : Nat
  crashed : Bool
deriving Repr, DecidableEq

/-- One interleaving step: any in-flight goroutine of the live process
executes its next action (once `crashed`, nothing steps).  `shutdown` closes
the current server's listener (`app.server.Shutdown`), freeing the port;
`spawn` launches a fresh `startServer` goroutine and ends `restartServer`;
`listenOk` binds the port (`certmagic.Listen`) when it is free; `listenFail`
is `certmagic.Listen` with the port already bound by a concurrent rebuild —
`logger.Fatal`, killing the process; `publish` sets `app.server` to the new
server and ends `startServer`. -/
inductive ReloadStep : ReloadState → ReloadState → Prop where
  | shutdown (pre post : List ThreadPC) (s : ReloadState)
      (hc : s.crashed = false)
      (h : s.threads = pre ++ .restartAtShutdown :: post) :
      ReloadStep s { s with
        listeners := s.listeners.filter (fun l => !(s.current == some l)),
        threads := pre ++ .restartAtSpawn :: post }
  | spawn (pre post : List ThreadPC) (s : ReloadState)
      (hc : s.crashed = false)
      (h : s.threads = pre ++ .restartAtSpawn :: post) :
      ReloadStep s { s with threads := (pre ++ post) ++ [.startAtListen] }
  | listenOk (pre post : List ThreadPC) (s : ReloadState)
      (hc : s.crashed = false)
      (h : s.threads = pre ++ .startAtListen :: post)
      (hfree : s.listeners = []) :
      ReloadStep s { s with
        listeners := [s.nextId],
        threads := pre ++ .startAtPublish s.nextId :: post,
        nextId := s.nextId + 1 }
  | listenFail (pre post : List ThreadPC) (s : ReloadState)
      (hc : s.crashed = false)
      (h : s.threads = pre ++ .startAtListen :: post)
      (hbusy : s.listeners ≠ []) :
      ReloadStep s { s with threads := pre ++ post, crashed := true }
  | publish (pre post : List ThreadPC) (lid : Nat) (s : ReloadState)
      (hc : s.crashed = false)
      (h : s.threads = pre ++ .startAtPublish lid :: post) :
      ReloadStep s { s with current := some lid, threads := pre ++ post }

/-- Reachability under the interleaving semantics. -/
def ReloadReachable : ReloadState → ReloadState → Prop :=
  Relation.ReflTransGen ReloadStep

/-- The claim's scenario: one running server (listener 0 bound and current)
and two reload triggers fired back-to-back, i.e. two `restartServer` calls
about to run. -/
def reloadInit : ReloadState :=
  { listeners := [0], current := some 0,
    threads := [.restartAtShutdown, .restartAtShutdown], nextId := 1,
    crashed := false }

/-- Both triggers have shut the old server down and each has spawned its own
`startServer`: two concurrent rebuilds in flight, port free. -/
def twoBuildersState : ReloadState :=
  { listeners := [], current := some 0,
    threads := [.startAtListen, .startAtListen], nextId := 1,
    crashed := false }

/-- The first rebuild has bound the port (listener 1, not yet published); the
second rebuild's `certmagic.Listen` failed on the occupied port and its
`logger.Fatal` killed the process.  `app.server` still points at the old,
already-shut-down server (listener 0): no rebuilt server was published. -/
def crashedState : ReloadState :=
  { listeners := [1], current := some 0,
    threads := [.startAtPublish 1], nextId := 2, crashed := true }

/-- The interleaving in which both triggers shut the old server down and both
spawn their own `startServer`: reachable because nothing in
`restartServer`/`startServer` serializes reloads. -/
theorem reloadTraceTwoBuilders : ReloadReachable reloadInit twoBuildersState := by
  have h1 : ReloadStep reloadInit
      { listeners := [], current := some 0,
        threads := [.restartAtSpawn, .restartAtShutdown], nextId := 1,
        crashed := false } :=
    ReloadStep.shutdown [] [.restartAtShutdown] reloadInit rfl rfl
  have h2 : ReloadStep
      { listeners := [], current := some 0,
        threads := [.restartAtSpawn, .restartAtShutdown], nextId := 1,
        crashed := false }
      { listeners := [], current := some 0,
        threads := [.restartAtSpawn, .restartAtSpawn], nextId := 1,
        crashed := false } :=
    ReloadStep.shutdown [.restartAtSpawn] [] _ rfl rfl
  have h3 : ReloadStep
      { listeners := [], current := some 0,
        threads := [.restartAtSpawn, .restartAtSpawn], nextId := 1,
        crashed := false }
      { listeners := [], current := some 0,
        threads := [.restartAtSpawn, .startAtListen], nextId := 1,
        crashed := false } :=
    ReloadStep.spawn [] [.restartAtSpawn] _ rfl rfl
  have h4 : ReloadStep
      { listeners := [], current := some 0,
        threads := [.restartAtSpawn, .startAtListen], nextId := 1,
        crashed := false }
      twoBuildersState :=
    ReloadStep.spawn [] [.startAtListen] _ rfl rfl
  exact .head h1 (.head h2 (.head h3 (.single h4)))

/-- Continuing from the two concurrent rebuilds: the first binds the port,
the second's bind fails on the occupied port and `logger.Fatal` kills the
process. -/
theorem reloadTraceCrash : ReloadReachable reloadInit crashedState := by
  have h5 : ReloadStep twoBuildersState
      { listeners := [1], current := some 0,
        threads := [.startAtPublish 1, .startAtListen], nextId := 2,
        crashed := false } :=
    ReloadStep.listenOk [] [.startAtListen] _ rfl rfl rfl
  have h6 : ReloadStep
      { listeners := [1], current := some 0,
        threads := [.startAtPublish 1, .startAtListen], nextId := 2,
        crashed := false }
      crashedState :=
    ReloadStep.listenFail [.startAtPublish 1] [] _ rfl rfl (by decide)
  exact Relation.ReflTransGen.trans reloadTraceTwoBuilders
    (.head h5 (.single h6))

/-- The port is exclusive, so no reachable state of the claim's scenario ever
has two listening sockets bound: every step either frees, keeps, or binds the
single port, and a bind on the occupied port is fatal instead. -/
theorem reload_single_listener (s : ReloadState)
    (h : ReloadReachable reloadInit s) : s.listeners.length ≤ 1 := by
  induction h with
  | refl => decide
  | tail _ hstep ih =>
    cases hstep with
    | shutdown => exact le_trans (List.length_filter_le _ _) ih
    | spawn => exact ih
    | listenOk => simp
    | listenFail => exact ih
    | publish => exact ih

/-! ### Claim C5 -/

/-- C5 (amended): reload execution is neither serialized nor coalesced — a
state with two rebuild goroutines running concurrently is reachable from two
back-to-back triggers; two such triggers need not result in exactly one
rebuilt live server: the reachable outcomes include the process dying by
`logger.Fatal` when the second rebuild's `certmagic.Listen` finds the port
already bound, with no new server ever published (`app.server` still the old,
shut-down one); and at no instant are two listening sockets simultaneously
bound — not by coalescing, but because the second concurrent bind of the
exclusive port is fatal. -/
theorem C5_reload_not_coalesced :
    (ReloadReachable reloadInit twoBuildersState ∧
      twoBuildersState.threads = [.startAtListen, .startAtListen]) ∧
    (ReloadReachable reloadInit crashedState ∧
      crashedState.crashed = true ∧ crashedState.current = some 0) ∧
    (∀ s : ReloadState, ReloadReachable reloadInit s →
      s.listeners.length ≤ 1) :=
  ⟨⟨reloadTraceTwoBuilders, rfl⟩, ⟨reloadTraceCrash, rfl, rfl⟩,
    reload_single_listener⟩

/-- C5 witness: the single-bound-socket invariant evaluated at the crashed
state of the concrete trace. -/
theorem C5_reload_not_coalesced_witness : crashedState.listeners.length ≤ 1 :=
  C5_reload_not_coalesced.2.2 crashedState reloadTraceCrash

/-- C5 counterexample: from one running server with two back-to-back reload
triggers, the state in which the process has been killed by `logger.Fatal` —
the second concurrent `certmagic.Listen` failing on the port the first rebuild
had just bound — is reachable, with `app.server` still pointing at the old,
already-shut-down server: the triggers were not coalesced into one pending
follow-up and did not result in exactly one rebuilt live server. -/
theorem C5_counterexample :
    ReloadReachable reloadInit crashedState ∧
    crashedState.crashed = true ∧
    crashedState.current = some 0 ∧
    crashedState.threads.length = 1 :=
  ⟨reloadTraceCrash, rfl, rfl, rfl⟩

/-! ## Interrupt handling in `run` (`tobab.go:159-170`)

After spawning the proxy server and the RPC server, `run` blocks on a channel
registered for `os.Interrupt`, and once the signal arrives it logs
"shutting down" and returns; the deferred `db.Close()` (tobab.go:131) runs and
the process exits.  `run` never calls `app.server.Shutdown` — the bounded
drain that `restartServer` performs (tobab.go:194-197) has no counterpart on
the interrupt path. -/

/-- The actions `run` can take once the interrupt signal is received, plus
`drainServer` — the `app.server.Shutdown` call with a bounded-timeout context
that a graceful drain would be. -/
inductive RunAction where
  | logShutdown
  | closeDatabase
  | drainServer
  | exitProcess
deriving Repr, DecidableEq

/-- What `run` does when `os.Interrupt` arrives (tobab.go:168-170 plus the
deferred close at tobab.go:131): log "shutting down", close the database,
exit.  No other signal is handled (`signal.Notify(c, os.Interrupt)` only). -/
def runInterruptResponse : List RunAction :=
  [.logShutdown, .closeDatabase, .exitProcess]

/-- C6: the interrupt response is a logged shutdown ending in process exit,
but it contains no drain of the live server: `run` exits without ever calling
`app.server.Shutdown`, so the claimed bounded-grace-period drain before exit
does not happen. -/
theorem C6_no_drain_on_interrupt :
    RunAction.logShutdown ∈ runInterruptResponse ∧
    runInterruptResponse.getLast? = some RunAction.exitProcess ∧
    RunAction.drainServer ∉ runInterruptResponse := by
  decide

/-! ## Model of Go `time.ParseDuration` and the boot-time session lifetimes

`run` (tobab.go:133-153) fixes the session lifetimes once at boot:
`defaultAge` is `time.ParseDuration(cfg.DefaultTokenAge)`, falling back to
`720 * time.Hour` when parsing fails, and `maxAge` is
`time.ParseDuration(cfg.MaxTokenAge)`, falling back to `24 * 365 * time.Hour`
(the `720 * time.Hour` in the struct literal at tobab.go:137 is always
overwritten by the branch at tobab.go:149-153).  `time.ParseDuration` is
translated below; the single deviation is that the fractional part is scaled
with exact integer arithmetic where Go computes
`uint64(float64(f) * (float64(unit)/scale))` in binary floating point — the
two agree whenever that float computation is exact, and no tobab claim
depends on a fractional duration. -/

/-- Nanoseconds per unit (`unitMap` in Go `time`): ns, us (with both micro
signs), ms, s, m, h. -/
def unitNanos (u : List Char) : Option Nat :=
  if u == ['n', 's'] then some 1
  else if u == ['u', 's'] then some 1000
  else if u == [Char.ofNat 0xB5, 's'] then some 1000
  else if u == [Char.ofNat 0x3BC, 's'] then some 1000
  else if u == ['m', 's'] then some 1000000
  else if u == ['s'] then some 1000000000
  else if u == ['m'] then some 60000000000
  else if u == ['h'] then some 3600000000000
  else none

/-- `time.leadingInt`: consume leading digits into `x`, failing on uint64/2
overflow exactly as Go does (pre-multiply guard `x > 1<<63/10`, post-add guard
`x > 1<<63`). -/
def leadingIntAux (x : Nat) : List Char → Option (Nat × List Char)
  | [] => some (x, [])
  | c :: cs =>
    if isDigitChar c then
      if x > 2 ^ 63 / 10 then none
      else
        let y := x * 10 + (c.toNat - '0'.toNat)
        if y > 2 ^ 63 then none else leadingIntAux y cs
    else some (x, c :: cs)

/-- `time.leadingFraction`: consume digits after the decimal point, tracking
the scale; on overflow the remaining digits are consumed but ignored. -/
def leadingFractionAux (x scale : Nat) (overflow : Bool) :
    List Char → Nat × Nat × List Char
  | [] => (x, scale, [])
  | c :: cs =>
    if isDigitChar c then
      if overflow then leadingFractionAux x scale true cs
      else if x > (2 ^ 63 - 1) / 10 then leadingFractionAux x scale true cs
      else
        let y := x * 10 + (c.toNat - '0'.toNat)
        if y > 2 ^ 63 then leadingFractionAux x scale true cs
        else leadingFractionAux y (scale * 10) false cs
    else (x, scale, c :: cs)

/-- The unit-name scan of `time.ParseDuration`: everything up to the next
digit or decimal point. -/
def takeUnit : List Char → List Char × List Char
  | [] => ([], [])
  | c :: cs =>
    if c == '.' || isDigitChar c then ([], c :: cs)
    else
      let (u, r) := takeUnit cs
      (c :: u, r)

/-- The term loop of `time.ParseDuration`, accumulating nanoseconds in `d`:
each `[0-9]*(\.[0-9]*)?unit` term must start with a digit or point, must have
digits on at least one side of the point, must name a known unit, and must not
overflow `2^63` at any of Go's three checks.  The fuel only bounds the
recursion; each iteration consumes at least the one-character unit, so
`length + 1` fuel never runs out. -/
def parseDurationTerms : Nat → Nat → List Char → Option Nat
  | _, d, [] => some d
  | 0, _, _ => none
  | Nat.succ fuel, d, c :: s0 =>
    if !(c == '.' || isDigitChar c) then none
    else
      match leadingIntAux 0 (c :: s0) with
      | none => none
      | some (v, s1) =>
        let pre : Bool := decide (s1.length ≠ (c :: s0).length)
        match (match s1 with
               | '.' :: rest =>
                 match leadingFractionAux 0 1 false rest with
                 | (f, sc, r) => (f, sc, r, decide (r.length ≠ rest.length))
               | _ => ((0 : Nat), (1 : Nat), s1, false)) with
        | (f, scale, s2, post) =>
          if !pre && !post then none
          else
            match takeUnit s2 with
            | ([], _) => none
            | (u, s3) =>
              match unitNanos u with
              | none => none
              | some unit =>
                if v > 2 ^ 63 / unit then none
                else
                  let v1 := v * unit
                  let v2 := if 0 < f then v1 + f * unit / scale else v1
                  if 0 < f && decide (v2 > 2 ^ 63) then none
                  else if d + v2 > 2 ^ 63 then none
                  else parseDurationTerms fuel (d + v2) s3

/-- Go `time.ParseDuration` returning nanoseconds, `none` for every parse
error: optional sign, the literal `"0"`, the empty-string error, the term
loop, and the final signed-range checks (`-2^63` is representable, `2^63` is
not). -/
def goParseDuration (str : String) : Option Int :=
  let s := str.toList
  let (neg, s1) :=
    match s with
    | c :: cs => if c == '-' || c == '+' then (c == '-', cs) else (false, s)
    | [] => (false, s)
  if s1 == ['0'] then some 0
  else if s1 == [] then none
  else
    match parseDurationTerms (s1.length + 1) 0 s1 with
    | none => none
    | some d =>
      if neg then some (-(d : Int))
      else if d > 2 ^ 63 - 1 then none
      else some (d : Int)

/-- `time.Hour` in nanoseconds. -/
def hourNs : Int := 3600000000000

/-- The session-lifetime assignments of `run` (tobab.go:143-153): `defaultAge`
from `cfg.DefaultTokenAge` with fallback `720 * time.Hour`, `maxAge` from
`cfg.MaxTokenAge` with fallback `24 * 365 * time.Hour`; the `720 * time.Hour`
placed in `maxAge` by the struct literal (tobab.go:137) is dead, since the
`MaxTokenAge` branch always reassigns it. -/
def bootAges (defaultTokenAge maxTokenAge : String) : Int × Int :=
  let defaultAge : Int :=
    match goParseDuration defaultTokenAge with
    | none => 720 * hourNs
    | some age => age
  let maxAge : Int :=
    match goParseDuration maxTokenAge with
    | none => 24 * 365 * hourNs
    | some age => age
  (defaultAge, maxAge)

example : goParseDuration "12h" = some 43200000000000 := rfl

example : goParseDuration "1h30m" = some 5400000000000 := rfl

example : goParseDuration "bogus" = none := rfl

example : goParseDuration "" = none := rfl

/-! ### Claim C9 -/

/-- C9: at boot, the default and the maximum session lifetime are each taken
from the configured string when it parses as a Go duration, and each falls
back to its fixed documented default — `720 * time.Hour` for the default
lifetime, `24 * 365 * time.Hour` for the maximum — when it does not parse. -/
theorem C9_bootAges (dStr mStr : String) :
    (∀ v, goParseDuration dStr = some v → (bootAges dStr mStr).1 = v) ∧
    (goParseDuration dStr = none → (bootAges dStr mStr).1 = 720 * hourNs) ∧
    (∀ v, goParseDuration mStr = some v → (bootAges dStr mStr).2 = v) ∧
    (goParseDuration mStr = none → (bootAges dStr mStr).2 = 24 * 365 * hourNs) := by
  unfold bootAges
  cases hd : goParseDuration dStr <;> cases hm : goParseDuration mStr <;> simp

/-- C9 witness: `DefaultTokenAge = "12h"` parses and is used;
`MaxTokenAge = "bogus"` does not parse, so the maximum falls back to
`24 * 365 * time.Hour`. -/
theorem C9_bootAges_witness :
    (bootAges "12h" "bogus").1 = 43200000000000 ∧
    (bootAges "12h" "bogus").2 = 24 * 365 * hourNs := by
  have h := C9_bootAges "12h" "bogus"
  exact ⟨h.1 43200000000000 rfl, h.2.2.2 rfl⟩

end Tobab
